import Mathlib

/-!
Shallow embedding of the ping-tracker core: the data model (tracker/models.go),
the latency prober (tracker/ping.go), the tracking engine (tracker/tracker.go)
and the record constructor of the Linux scanner (tracker/scanner.go).

Modelling conventions:
* `uint64` byte counters are `Nat` (the only subtraction performed by the code
  is guarded by `new ≥ prev`, so no wraparound arithmetic is reachable);
* Go `int` fields are `Int`;
* `time.Time`, `time.Duration` and the `float64` rates are exact rationals
  (seconds); the zero `time.Time` (`IsZero`) is the rational `0`;
* the Go map `map[string]*Connection` is an association list from key to
  record; mutation of a record through a pointer becomes replacement of the
  entry; the mutex and the stop channel are not part of the model;
* network effects (TCP dial attempts) are an oracle argument.
-/

set_option autoImplicit false

/-- `ConnState` (models.go): the state of a tracked connection. -/
inductive ConnState
  | established
  | listening
  | timeWait
  | closeWait
  | synSent
  | synRecv
  | finWait1
  | finWait2
  | lastAck
  | closing
  | closed
  | unknown
deriving DecidableEq

/-- `Direction` (models.go): inbound or outbound. -/
inductive Direction
  | inbound
  | outbound
deriving DecidableEq

/-- `Connection` (models.go): one tracked network connection, including the
engine-private bookkeeping fields `prevTxBytes`, `prevRxBytes`, `prevTime`. -/
structure Conn where
  PID : Int
  AppName : String
  Protocol : String
  Direction : Direction
  LocalAddr : String
  LocalPort : Int
  RemoteAddr : String
  RemotePort : Int
  State : ConnState
  Ping : ℚ
  Loss : ℚ
  TxBytes : Nat
  RxBytes : Nat
  TxRate : ℚ
  RxRate : ℚ
  ConnAge : ℚ
  FirstSeen : ℚ
  LastUpdated : ℚ
  PingCount : Int
  PingFailed : Int
  prevTxBytes : Nat
  prevRxBytes : Nat
  prevTime : ℚ
deriving DecidableEq

/-- `Connection.Key` (models.go): the identity key
`"%d:%s:%s:%d->%s:%d"` over pid, protocol and the two endpoints. -/
def Conn.Key (c : Conn) : String :=
  toString c.PID ++ ":" ++ c.Protocol ++ ":" ++ c.LocalAddr ++ ":"
    ++ toString c.LocalPort ++ "->" ++ c.RemoteAddr ++ ":" ++ toString c.RemotePort

/-- The `Connection` literal built by the Linux `ScanConnections`
(scanner.go): identity, endpoints, state and the two queue counters are set,
`FirstSeen`/`LastUpdated` get the scanner's clock, an empty process name
becomes `"unknown"`, the direction is derived, and every other field keeps
its Go zero value. -/
def mkScannedConn (pid : Int) (name protocol : String)
    (localAddr : String) (localPort : Int) (remoteAddr : String) (remotePort : Int)
    (state : ConnState) (txQ rxQ : Nat) (now : ℚ) : Conn :=
  let name2 := if name = "" then "unknown" else name
  let dir := if state = ConnState.listening ∨ remoteAddr = "0.0.0.0" ∨ remoteAddr = "::"
    then Direction.inbound else Direction.outbound
  { PID := pid, AppName := name2, Protocol := protocol, Direction := dir,
    LocalAddr := localAddr, LocalPort := localPort,
    RemoteAddr := remoteAddr, RemotePort := remotePort,
    State := state, Ping := 0, Loss := 0, TxBytes := txQ, RxBytes := rxQ,
    TxRate := 0, RxRate := 0, ConnAge := 0, FirstSeen := now, LastUpdated := now,
    PingCount := 0, PingFailed := 0, prevTxBytes := 0, prevRxBytes := 0, prevTime := 0 }

/-- Result of `MeasurePing`; `dials` additionally records how many
`net.DialTimeout` calls were made (the function's only side effect). -/
structure PingResult where
  rtt : ℚ
  loss : ℚ
  dials : Nat
deriving DecidableEq

/-- `pingCount` (ping.go): number of sequential connect attempts. -/
def pingCount : Nat := 3

/-- `MeasurePing` (ping.go).  The network is an oracle: `net i = some e` when
attempt `i` establishes a connection after `e` seconds, `none` when it errors.
The guard list is exactly the four address literals tested by the source. -/
def MeasurePing (addr : String) (port : Int) (net : Nat → Option ℚ) : PingResult :=
  if addr = "0.0.0.0" ∨ addr = "::" ∨ addr = "127.0.0.1" ∨ addr = "::1" then
    ⟨0, 0, 0⟩
  else
    let _ := port
    let okAttempts := (List.range pingCount).filterMap net
    let successful := okAttempts.length
    if successful = 0 then ⟨0, 100, pingCount⟩
    else ⟨okAttempts.sum / (successful : ℚ),
          ((pingCount : ℚ) - (successful : ℚ)) / (pingCount : ℚ) * 100, pingCount⟩

/-- `Tracker` (tracker.go): the engine state.  `connections` is the keyed
live map; the stop channel and the lock are not modelled. -/
structure Tracker where
  connections : List (String × Conn)
  interval : ℚ
  pingEnabled : Bool

/-- `NewTracker` (tracker.go): empty map, given interval and ping flag. -/
def NewTracker (interval : ℚ) (pingEnabled : Bool) : Tracker :=
  { connections := [], interval := interval, pingEnabled := pingEnabled }

/-- Lookup in the association-list model of `t.connections[key]`. -/
def lookupConn : List (String × Conn) → String → Option Conn
  | [], _ => none
  | p :: rest, k => if p.1 = k then some p.2 else lookupConn rest k

/-- The rate recomputation (tracker.go, inside `scan`): each of the two rates
is rewritten to `(new − prev) / dt` only when the new counter is at least the
stored previous counter; otherwise that rate is left untouched. -/
def rateUpdate (e sc : Conn) (dt : ℚ) : Conn :=
  let e1 := if e.prevTxBytes ≤ sc.TxBytes
    then { e with TxRate := ((sc.TxBytes - e.prevTxBytes : Nat) : ℚ) / dt }
    else e
  if e1.prevRxBytes ≤ sc.RxBytes
    then { e1 with RxRate := ((sc.RxBytes - e1.prevRxBytes : Nat) : ℚ) / dt }
    else e1

/-- Re-observation of an existing record (`scan`'s update branch,
tracker.go): state, `LastUpdated` and `ConnAge` are refreshed; when
`prevTime` is set and `dt > 0` the rates are recomputed; then, in source
order, `prevTxBytes`/`prevRxBytes` receive the record's *old* `TxBytes`/
`RxBytes` fields, `prevTime` receives `now`, and only afterwards are
`TxBytes`/`RxBytes` overwritten with the scanned counters. -/
def updateExisting (existing sc : Conn) (now : ℚ) : Conn :=
  let e1 := { existing with State := sc.State, LastUpdated := now,
                            ConnAge := now - existing.FirstSeen }
  let e2 := if e1.prevTime = 0 then e1
    else
      let dt := now - e1.prevTime
      if 0 < dt then rateUpdate e1 sc dt else e1
  { e2 with prevTxBytes := e2.TxBytes, prevRxBytes := e2.RxBytes, prevTime := now,
            TxBytes := sc.TxBytes, RxBytes := sc.RxBytes }

/-- First observation of a key (`scan`'s insert branch, tracker.go):
`FirstSeen`, `LastUpdated` and `prevTime` are set to `now` and the previous
counters to the record's own initial counters. -/
def initNew (sc : Conn) (now : ℚ) : Conn :=
  { sc with FirstSeen := now, LastUpdated := now, prevTime := now,
            prevTxBytes := sc.TxBytes, prevRxBytes := sc.RxBytes }

/-- One iteration of `scan`'s reconciliation loop (tracker.go): update the
entry under the record's key if present, otherwise insert the initialized
record. -/
def scanStep (l : List (String × Conn)) (sc : Conn) (now : ℚ) :
    List (String × Conn) :=
  match lookupConn l sc.Key with
  | some existing =>
      l.map fun p => if p.1 = sc.Key then (p.1, updateExisting existing sc now) else p
  | none => l ++ [(sc.Key, initNew sc now)]

/-- The whole reconciliation loop over this cycle's discovered records. -/
def reconcile (l : List (String × Conn)) (scanned : List Conn) (now : ℚ) :
    List (String × Conn) :=
  scanned.foldl (fun acc sc => scanStep acc sc now) l

/-- Stale removal (tracker.go): after the loop, every entry whose key is not
in `alive` is deleted; `alive` holds exactly the keys of this cycle's
scanned records. -/
def evict (l : List (String × Conn)) (scanned : List Conn) :
    List (String × Conn) :=
  l.filter fun p => (scanned.map Conn.Key).contains p.1

/-- `scan` (tracker.go): a failed discovery returns at once, leaving the
tracker untouched and surfacing nothing; a successful one reconciles and then
evicts under the write lock.  The ping pass runs outside the lock and does
not touch the map, so it is modelled separately (`pingWriteback`,
`PassStep`). -/
def Tracker.scan (t : Tracker) (discovered : Except String (List Conn))
    (now : ℚ) : Tracker :=
  match discovered with
  | .error _ => t
  | .ok scanned =>
      { t with connections := evict (reconcile t.connections scanned now) scanned }

/-- The probe write-back critical section of `pingAll` (tracker.go): latest
RTT and loss, `PingCount` incremented, `PingFailed` incremented exactly when
`loss >= 100`. -/
def pingWriteback (c : Conn) (rtt loss : ℚ) : Conn :=
  { c with Ping := rtt, PingCount := c.PingCount + 1, Loss := loss,
           PingFailed := if 100 ≤ loss then c.PingFailed + 1 else c.PingFailed }

/-- The two mutations a live record undergoes after its insertion:
re-observation by a later scan and a probe write-back. -/
inductive ConnEvent
  | scanUpdate (sc : Conn) (now : ℚ)
  | pingWrite (rtt loss : ℚ)

/-- Apply one lifecycle event to a record. -/
def applyEvent (c : Conn) : ConnEvent → Conn
  | .scanUpdate sc now => updateExisting c sc now
  | .pingWrite rtt loss => pingWriteback c rtt loss

/-- `Snapshot` (tracker.go): the values currently in the map, as copies. -/
def Tracker.Snapshot (t : Tracker) : List Conn :=
  t.connections.map Prod.snd

/-- The ASCII case mapping applied by `strings.ToLower` to the app-name
field and the query. -/
def goLowerChar (c : Char) : Char :=
  if 'A' ≤ c ∧ c ≤ 'Z' then Char.ofNat (c.toNat + 32) else c

/-- `strings.ToLower` on the character sequence of a string (ASCII range). -/
def goToLower (s : String) : String :=
  String.mk (s.data.map goLowerChar)

/-- `hasPfx pre s`: `pre` is a prefix of the character list `s`. -/
def hasPfx : List Char → List Char → Bool
  | [], _ => true
  | _ :: _, [] => false
  | a :: as, b :: bs => a == b && hasPfx as bs

/-- `containsSub sub s`: `sub` occurs as a contiguous subsequence of `s`
(`strings.Contains`). -/
def containsSub (sub : List Char) : List Char → Bool
  | [] => sub.isEmpty
  | c :: rest => hasPfx sub (c :: rest) || containsSub sub rest

/-- `strings.Contains` on strings: `goContains s sub`. -/
def goContains (s sub : String) : Bool :=
  containsSub sub.data s.data

/-- `Search` (tracker.go): the empty query falls back to `Snapshot`; a
non-empty query filters the map's values by case-insensitive substring match
on `AppName` alone. -/
def Tracker.Search (t : Tracker) (query : String) : List Conn :=
  if query = "" then Tracker.Snapshot t
  else (t.connections.map Prod.snd).filter fun c =>
    goContains (goToLower c.AppName) (goToLower query)

/-- A store of `Connection` records addressed by `Nat`, with a bump
allocator: the heap cells behind the `*Connection` pointers held by the
tracker map and produced by `Snapshot`'s `cp := *c` copies. -/
structure Heap where
  store : Nat → Conn
  next : Nat

/-- Mutate the record in one heap cell (what a consumer does when it writes
to a record it was handed). -/
def Heap.write (h : Heap) (a : Nat) (c : Conn) : Heap :=
  { h with store := fun b => if b = a then c else h.store b }

/-- Allocate a fresh cell holding `c`. -/
def Heap.alloc (h : Heap) (c : Conn) : Nat × Heap :=
  (h.next, { store := fun b => if b = h.next then c else h.store b,
             next := h.next + 1 })

/-- The `Snapshot` loop at heap level (tracker.go): each record at an
engine-owned address is copied into a freshly allocated cell whose address is
what the caller receives. -/
def snapshotAlloc : Heap → List Nat → List Nat × Heap
  | h, [] => ([], h)
  | h, a :: rest =>
      let r := Heap.alloc h (h.store a)
      let r2 := snapshotAlloc r.2 rest
      (r.1 :: r2.1, r2.2)

/-- State of one `pingAll` pass (tracker.go) over `n` collected targets:
`toSpawn` probes not yet dispatched, `inFlight` dispatched and not yet
finished (each holds one of the 20 semaphore slots of
`make(chan struct\x7b\x7d, 20)`), `doneCount` finished, and `returned` set
once `wg.Wait()` has returned. -/
structure PassState where
  toSpawn : Nat
  inFlight : Nat
  doneCount : Nat
  returned : Bool
deriving DecidableEq

/-- The pass before any probe is dispatched. -/
def initPass (n : Nat) : PassState := ⟨n, 0, 0, false⟩

/-- Interleaving steps of `pingAll`: `spawn` sends on the capacity-20
semaphore channel and starts a probe goroutine (blocked while 20 slots are
held); `probeDone` is a probe finishing, releasing its slot and calling
`wg.Done()`; `passReturn` is `wg.Wait()` returning, possible only after the
dispatch loop has emptied and every dispatched probe has finished. -/
inductive PassStep : PassState → PassState → Prop
  | spawn (s : PassState) : 0 < s.toSpawn → s.inFlight < 20 → s.returned = false →
      PassStep s ⟨s.toSpawn - 1, s.inFlight + 1, s.doneCount, false⟩
  | probeDone (s : PassState) : 0 < s.inFlight →
      PassStep s ⟨s.toSpawn, s.inFlight - 1, s.doneCount + 1, s.returned⟩
  | passReturn (s : PassState) : s.toSpawn = 0 → s.inFlight = 0 → s.returned = false →
      PassStep s ⟨0, 0, s.doneCount, true⟩

/-- States a pass over `n` targets can reach from its initial state. -/
inductive PassReachable (n : Nat) : PassState → Prop
  | init : PassReachable n (initPass n)
  | step {s s' : PassState} : PassReachable n s → PassStep s s' → PassReachable n s'

/-- Written from the spec's words, for comparison with `MeasurePing`'s
guard: the targets the spec exempts from probing, "an unspecified address or
a loopback address" (unspecified: `0.0.0.0` / `::`; loopback: the
`127.0.0.0/8` block or `::1`). -/
def specNoProbeAddr (addr : String) : Bool :=
  (addr == "0.0.0.0" || addr == "::")
    || (hasPfx "127.".data addr.data || addr == "::1")

/-! Concrete values used by the closed instances below. -/

/-- A record first discovered with counters (10, 10) at time 100. -/
def lagS0 : Conn :=
  mkScannedConn 7 "app" "tcp" "10.0.0.1" 1000 "10.0.0.2" 80 ConnState.established 10 10 100

/-- That record as inserted by its first scan cycle. -/
def lagC0 : Conn := initNew lagS0 100

/-- The same connection rediscovered with counters (20, 20) at time 101. -/
def lagS1 : Conn :=
  mkScannedConn 7 "app" "tcp" "10.0.0.1" 1000 "10.0.0.2" 80 ConnState.established 20 20 101

/-- The live record after the second cycle. -/
def lagC1 : Conn := updateExisting lagC0 lagS1 101

/-- The same connection rediscovered with counters (30, 30) at time 102. -/
def lagS2 : Conn :=
  mkScannedConn 7 "app" "tcp" "10.0.0.1" 1000 "10.0.0.2" 80 ConnState.established 30 30 102

/-- The live record after the third cycle. -/
def lagC2 : Conn := updateExisting lagC1 lagS2 102

/-- An existing record whose stored previous counters are both 1000. -/
def guardEx : Conn :=
  { mkScannedConn 1 "a" "tcp" "l" 1 "r" 2 ConnState.established 0 0 3 with
    prevTxBytes := 1000, prevRxBytes := 1000, prevTime := 1, TxRate := 5, RxRate := 7 }

/-- A rediscovery of that record with both counters decreased to 500. -/
def guardSc : Conn := mkScannedConn 1 "a" "tcp" "l" 1 "r" 2 ConnState.established 500 500 2

/-- A scanner record with non-zero counters, first observed at time 100. -/
def firstSc : Conn := mkScannedConn 7 "x" "tcp" "a" 1 "b" 2 ConnState.established 42 99 100

/-- A record owned by the browser process "Chrome". -/
def chromeConn : Conn :=
  mkScannedConn 9 "Chrome" "tcp" "10.0.0.5" 1 "10.0.0.6" 2 ConnState.established 0 0 3

/-- A tracker whose live map holds exactly the Chrome record. -/
def chromeTracker : Tracker :=
  { connections := [(chromeConn.Key, chromeConn)], interval := 3, pingEnabled := true }

/-- The record stored in the one-cell engine heap below. -/
def heapConn : Conn := mkScannedConn 1 "h" "tcp" "l" 1 "r" 2 ConnState.established 0 0 1

/-- A heap whose single allocated cell (address 0) is engine-owned. -/
def heap0 : Heap := { store := fun _ => heapConn, next := 1 }

/-- A record discovered in the cycle used by the key-set instance. -/
def w2sc : Conn := mkScannedConn 2 "w" "udp" "p" 5 "q" 6 ConnState.established 0 0 50

/-! Helper lemmas. -/

/-- A successful lookup means the key is among the map's keys. -/
theorem lookupConn_eq_some_mem {l : List (String × Conn)} {k : String} {c : Conn}
    (h : lookupConn l k = some c) : k ∈ l.map Prod.fst := by
  induction l with
  | nil => simp [lookupConn] at h
  | cons p rest ih =>
    by_cases hp : p.1 = k
    · simp [hp]
    · simp only [lookupConn, hp, if_false] at h
      simp [ih h]

/-- One loop iteration adds exactly the processed record's key to the key set. -/
theorem keys_scanStep (l : List (String × Conn)) (sc : Conn) (now : ℚ) (k : String) :
    k ∈ (scanStep l sc now).map Prod.fst ↔ k ∈ l.map Prod.fst ∨ k = sc.Key := by
  unfold scanStep
  cases h : lookupConn l sc.Key with
  | none => simp
  | some c =>
    have hmem := lookupConn_eq_some_mem h
    have hfst : ∀ (m : List (String × Conn)),
        (m.map fun p => if p.1 = sc.Key then (p.1, updateExisting c sc now) else p).map
            Prod.fst = m.map Prod.fst := by
      intro m
      induction m with
      | nil => rfl
      | cons q qs ih => by_cases hq : q.1 = sc.Key <;> simp [hq, ih]
    rw [hfst]
    constructor
    · exact Or.inl
    · rintro (h1 | rfl)
      · exact h1
      · exact hmem

/-- After the whole loop, the key set is the old keys plus all scanned keys. -/
theorem keys_reconcile (scanned : List Conn) (l : List (String × Conn)) (now : ℚ)
    (k : String) :
    k ∈ (reconcile l scanned now).map Prod.fst
      ↔ k ∈ l.map Prod.fst ∨ k ∈ scanned.map Conn.Key := by
  induction scanned generalizing l with
  | nil => simp [reconcile]
  | cons sc rest ih =>
    have hstep : reconcile l (sc :: rest) now = reconcile (scanStep l sc now) rest now := rfl
    rw [hstep, ih, keys_scanStep]
    simp only [List.map_cons, List.mem_cons]
    tauto

/-- Eviction keeps exactly the keys that were scanned this cycle. -/
theorem keys_evict (l : List (String × Conn)) (scanned : List Conn) (k : String) :
    k ∈ (evict l scanned).map Prod.fst
      ↔ k ∈ l.map Prod.fst ∧ k ∈ scanned.map Conn.Key := by
  simp only [evict, List.mem_map, List.mem_filter]
  constructor
  · rintro ⟨p, ⟨hp, hc⟩, rfl⟩
    exact ⟨⟨p, hp, rfl⟩, by simpa using hc⟩
  · rintro ⟨⟨p, hp, rfl⟩, hk⟩
    exact ⟨p, ⟨hp, by simpa using hk⟩, rfl⟩

/-- An absent key is found at the appended entry. -/
theorem lookupConn_append_none {l : List (String × Conn)} {k : String} {c : Conn}
    (h : lookupConn l k = none) : lookupConn (l ++ [(k, c)]) k = some c := by
  induction l with
  | nil => simp [lookupConn]
  | cons p rest ih =>
    by_cases hp : p.1 = k
    · simp [lookupConn, hp] at h
    · simp only [List.cons_append, lookupConn, hp, if_false] at h ⊢
      exact ih h

/-- A scan update never touches the probe counters. -/
theorem updateExisting_ping_fields (c sc : Conn) (now : ℚ) :
    (updateExisting c sc now).PingCount = c.PingCount
    ∧ (updateExisting c sc now).PingFailed = c.PingFailed := by
  unfold updateExisting rateUpdate
  dsimp only
  split_ifs <;> simp

/-- Copies made by `snapshotAlloc` never overwrite already-allocated cells. -/
theorem snapshotAlloc_store_lt (addrs : List Nat) (h : Heap) (b : Nat)
    (hb : b < h.next) : (snapshotAlloc h addrs).2.store b = h.store b := by
  induction addrs generalizing h with
  | nil => rfl
  | cons a rest ih =>
    show (snapshotAlloc (Heap.alloc h (h.store a)).2 rest).2.store b = h.store b
    rw [ih (Heap.alloc h (h.store a)).2 (by show b < h.next + 1; omega)]
    show (if b = h.next then h.store a else h.store b) = h.store b
    rw [if_neg (by omega)]

/-- Every address handed out by `snapshotAlloc` is fresh. -/
theorem snapshotAlloc_fresh (addrs : List Nat) (h : Heap) (a : Nat)
    (ha : a ∈ (snapshotAlloc h addrs).1) : h.next ≤ a := by
  induction addrs generalizing h with
  | nil => simp [snapshotAlloc] at ha
  | cons x rest ih =>
    have hcons : (snapshotAlloc h (x :: rest)).1
        = h.next :: (snapshotAlloc (Heap.alloc h (h.store x)).2 rest).1 := rfl
    rw [hcons] at ha
    rcases List.mem_cons.1 ha with rfl | hmem
    · exact Nat.le_refl _
    · have := ih (Heap.alloc h (h.store x)).2 hmem
      have hnext : (Heap.alloc h (h.store x)).2.next = h.next + 1 := rfl
      omega

/-- Inductive invariant of a `pingAll` pass: at most 20 slots are held, the
targets are conserved, and a returned pass has dispatched everything and has
nothing in flight. -/
theorem pass_invariant_aux (n : Nat) (s : PassState) (h : PassReachable n s) :
    s.inFlight ≤ 20 ∧ s.toSpawn + s.inFlight + s.doneCount = n
    ∧ (s.returned = true → s.toSpawn = 0 ∧ s.inFlight = 0) := by
  induction h with
  | init => simp [initPass]
  | step _ hstep ih =>
    obtain ⟨ih1, ih2, ih3⟩ := ih
    cases hstep with
    | spawn h1 h2 h3 =>
      refine ⟨by dsimp; omega, by dsimp; omega, by simp⟩
    | probeDone h1 =>
      refine ⟨by dsimp; omega, by dsimp; omega, ?_⟩
      intro hret
      dsimp only at hret ⊢
      obtain ⟨h4, h5⟩ := ih3 hret
      omega
    | passReturn h1 h2 h3 =>
      exact ⟨by dsimp; omega, by dsimp; omega, fun _ => ⟨rfl, rfl⟩⟩

/-! Claims. -/

/-- C1: the claim says that after an update the counters stored as "previous"
are the counters newly discovered in this cycle, making each cycle's rate the
delta since the immediately preceding sample.  The code violates this: in the
update branch `prevTxBytes` receives the record's old `TxBytes` field (the
counter of the *previous* cycle) before `TxBytes` is overwritten.  On the
trace 10 @ t=100, 20 @ t=101, 30 @ t=102: after the second cycle the stored
previous counter is 10, not the newly discovered 20, and the third cycle's
rate is (30 − 10)/1 = 20 instead of the single-interval delta
(30 − 20)/1 = 10. -/
theorem scan_prev_counter_lags :
    lagC1.TxRate = 10
    ∧ lagC1.prevTxBytes = 10
    ∧ lagC1.prevTxBytes ≠ lagS1.TxBytes
    ∧ lagC2.prevTxBytes = 20
    ∧ lagC2.prevTxBytes ≠ lagS2.TxBytes
    ∧ lagC2.TxRate = 20
    ∧ lagC2.TxRate ≠ ((30 : ℚ) - 20) / (102 - 101) := by
  refine ⟨?_, ?_, ?_, ?_, ?_, ?_, ?_⟩ <;>
    norm_num [lagC2, lagC1, lagC0, lagS2, lagS1, lagS0,
      updateExisting, rateUpdate, initNew, mkScannedConn]

/-- C2: after a scan cycle whose discovery succeeded, the key set of the live
map is exactly the key set of the cycle's discovered records: discovered keys
are present, nothing else is present, and keys absent from the discovery are
gone. -/
theorem scan_keys_match_discovery (t : Tracker) (scanned : List Conn) (now : ℚ)
    (k : String) :
    k ∈ (Tracker.scan t (Except.ok scanned) now).connections.map Prod.fst
      ↔ k ∈ scanned.map Conn.Key := by
  show k ∈ (evict (reconcile t.connections scanned now) scanned).map Prod.fst ↔ _
  rw [keys_evict, keys_reconcile]
  tauto

/-- Closed instance of C2 at a one-record discovery. -/
theorem scan_keys_match_discovery_witness :
    w2sc.Key ∈ (Tracker.scan (NewTracker 3 true) (Except.ok [w2sc]) 50).connections.map
        Prod.fst
      ↔ w2sc.Key ∈ [w2sc].map Conn.Key :=
  scan_keys_match_discovery (NewTracker 3 true) [w2sc] 50 w2sc.Key

/-- C3: a failed discovery aborts the cycle with no state mutation at all —
the whole tracker (live map and every field) is returned unchanged — and the
cycle's return type carries no error to callers. -/
theorem scan_error_no_mutation (t : Tracker) (e : String) (now : ℚ) :
    Tracker.scan t (Except.error e) now = t := rfl

/-- C4: when a rediscovered counter is strictly below the stored previous
counter, the corresponding rate is left exactly as it was — never set
negative or zeroed. -/
theorem rate_guard_on_decrease (existing sc : Conn) (now : ℚ) :
    (sc.TxBytes < existing.prevTxBytes →
      (updateExisting existing sc now).TxRate = existing.TxRate)
    ∧ (sc.RxBytes < existing.prevRxBytes →
      (updateExisting existing sc now).RxRate = existing.RxRate) := by
  unfold updateExisting rateUpdate
  constructor <;> intro h <;> dsimp only <;> split_ifs <;> simp_all <;> omega

/-- Closed instance of C4: previous counters 1000, new counters 500. -/
theorem rate_guard_on_decrease_witness :
    (updateExisting guardEx guardSc 2).TxRate = guardEx.TxRate
    ∧ (updateExisting guardEx guardSc 2).RxRate = guardEx.RxRate :=
  ⟨(rate_guard_on_decrease guardEx guardSc 2).1 (by decide),
   (rate_guard_on_decrease guardEx guardSc 2).2 (by decide)⟩

/-- C5: a record observed for the first time is inserted with first-seen,
last-updated and previous-sample time equal to the scan time, previous
counters equal to its initial counters, and both rates zero, even though its
byte counters are non-zero. -/
theorem first_observation_zero_rate (pid : Int) (name protocol localAddr : String)
    (localPort : Int) (remoteAddr : String) (remotePort : Int) (state : ConnState)
    (txQ rxQ : Nat) (t0 now : ℚ) (l : List (String × Conn)) :
    let sc := mkScannedConn pid name protocol localAddr localPort remoteAddr
      remotePort state txQ rxQ t0
    lookupConn l sc.Key = none →
      lookupConn (scanStep l sc now) sc.Key = some (initNew sc now)
      ∧ (initNew sc now).FirstSeen = now
      ∧ (initNew sc now).LastUpdated = now
      ∧ (initNew sc now).prevTxBytes = sc.TxBytes
      ∧ (initNew sc now).prevRxBytes = sc.RxBytes
      ∧ (initNew sc now).prevTime = now
      ∧ (initNew sc now).TxRate = 0
      ∧ (initNew sc now).RxRate = 0 := by
  intro sc habs
  refine ⟨?_, rfl, rfl, rfl, rfl, rfl, rfl, rfl⟩
  unfold scanStep
  rw [habs]
  exact lookupConn_append_none habs

/-- Closed instance of C5: counters (42, 99), inserted into an empty map. -/
theorem first_observation_zero_rate_witness :
    lookupConn (scanStep [] firstSc 105) firstSc.Key = some (initNew firstSc 105)
    ∧ (initNew firstSc 105).FirstSeen = 105
    ∧ (initNew firstSc 105).LastUpdated = 105
    ∧ (initNew firstSc 105).prevTxBytes = firstSc.TxBytes
    ∧ (initNew firstSc 105).prevRxBytes = firstSc.RxBytes
    ∧ (initNew firstSc 105).prevTime = 105
    ∧ (initNew firstSc 105).TxRate = 0
    ∧ (initNew firstSc 105).RxRate = 0 :=
  first_observation_zero_rate 7 "x" "tcp" "a" 1 "b" 2 ConnState.established 42 99 100 105
    [] rfl

/-- C6 counterexample: 127.0.0.2 is a loopback address in the spec's sense,
yet `MeasurePing` does not treat it as a no-op: with every dial failing it
performs all 3 connection attempts and returns loss 100 rather than (0, 0)
with no attempt. -/
theorem measurePing_loopback_counterexample :
    specNoProbeAddr "127.0.0.2" = true
    ∧ MeasurePing "127.0.0.2" 80 (fun _ => none) = ⟨0, 100, 3⟩ :=
  ⟨by decide, by decide⟩

/-- C6 amended: the no-op guard applies exactly to the four address literals
0.0.0.0, ::, 127.0.0.1 and ::1 (the canonical unspecified addresses and the
canonical loopback literals); for those, MeasurePing returns zero RTT and
zero loss without attempting any connection. -/
theorem measurePing_guard_exact (addr : String) (port : Int) (net : Nat → Option ℚ)
    (h : addr = "0.0.0.0" ∨ addr = "::" ∨ addr = "127.0.0.1" ∨ addr = "::1") :
    MeasurePing addr port net = ⟨0, 0, 0⟩ := by
  unfold MeasurePing
  rw [if_pos h]

/-- Closed instance of the amended C6 at the canonical loopback literal. -/
theorem measurePing_guard_exact_witness :
    MeasurePing "127.0.0.1" 80 (fun _ => none) = ⟨0, 0, 0⟩ :=
  measurePing_guard_exact "127.0.0.1" 80 (fun _ => none) (Or.inr (Or.inr (Or.inl rfl)))

/-- C7: the empty query is exactly `Snapshot`; a non-empty query returns
precisely the records whose application name contains the query as a
case-insensitive substring (no other field is consulted), so a record named
"Chrome" is found by both "chrome" and "CHR". -/
theorem search_appname_caseless (t : Tracker) (q : String) (c : Conn) :
    Tracker.Search t "" = Tracker.Snapshot t
    ∧ (q ≠ "" → (c ∈ Tracker.Search t q ↔ c ∈ Tracker.Snapshot t
        ∧ goContains (goToLower c.AppName) (goToLower q) = true))
    ∧ (c.AppName = "Chrome" → c ∈ Tracker.Snapshot t →
        c ∈ Tracker.Search t "chrome" ∧ c ∈ Tracker.Search t "CHR") := by
  refine ⟨rfl, ?_, ?_⟩
  · intro hq
    unfold Tracker.Search
    rw [if_neg hq]
    exact List.mem_filter
  · intro hname hmem
    constructor <;>
      · unfold Tracker.Search
        rw [if_neg (by decide)]
        refine List.mem_filter.2 ⟨hmem, ?_⟩
        rw [hname]
        decide

/-- Closed instance of C7 on a one-record tracker owning "Chrome". -/
theorem search_appname_caseless_witness :
    chromeConn ∈ Tracker.Search chromeTracker "chrome"
    ∧ chromeConn ∈ Tracker.Search chromeTracker "CHR" :=
  (search_appname_caseless chromeTracker "q" chromeConn).2.2 (by decide)
    (List.mem_singleton.2 rfl)

/-- C8: snapshot isolation.  When every engine-owned record lives below the
allocation frontier, every address handed out by the snapshot is fresh, so
writing any record through a snapshot address changes neither the engine's
records nor the values a subsequent snapshot would copy. -/
theorem snapshot_isolation (h : Heap) (addrs : List Nat)
    (hwf : ∀ b ∈ addrs, b < h.next) (a : Nat)
    (ha : a ∈ (snapshotAlloc h addrs).1) (c' : Conn) :
    (∀ b ∈ addrs, ((snapshotAlloc h addrs).2.write a c').store b = h.store b)
    ∧ addrs.map ((snapshotAlloc h addrs).2.write a c').store = addrs.map h.store := by
  have hfresh := snapshotAlloc_fresh addrs h a ha
  have key : ∀ b ∈ addrs,
      ((snapshotAlloc h addrs).2.write a c').store b = h.store b := by
    intro b hb
    have hblt := hwf b hb
    show (if b = a then c' else (snapshotAlloc h addrs).2.store b) = h.store b
    rw [if_neg (by omega), snapshotAlloc_store_lt addrs h b hblt]
  exact ⟨key, List.map_congr_left key⟩

/-- Closed instance of C8: one engine record at address 0, the snapshot copy
at address 1 is mutated by a probe write-back. -/
theorem snapshot_isolation_witness :
    (∀ b ∈ [0],
      ((snapshotAlloc heap0 [0]).2.write 1 (pingWriteback heapConn 9 100)).store b
        = heap0.store b)
    ∧ [0].map ((snapshotAlloc heap0 [0]).2.write 1 (pingWriteback heapConn 9 100)).store
        = [0].map heap0.store :=
  snapshot_isolation heap0 [0] (by intro b hb; simp at hb; subst hb; decide) 1
    (List.mem_singleton.2 rfl) (pingWriteback heapConn 9 100)

/-- C9: in every state a `pingAll` pass over `n` collected targets can
reach, at most 20 probes are in flight, and once the pass has returned every
dispatched probe has completed (all `n` are done). -/
theorem pingAll_bounded_concurrency (n : Nat) (s : PassState)
    (h : PassReachable n s) :
    s.inFlight ≤ 20 ∧ (s.returned = true → s.doneCount = n) := by
  obtain ⟨h1, h2, h3⟩ := pass_invariant_aux n s h
  refine ⟨h1, fun hr => ?_⟩
  obtain ⟨h4, h5⟩ := h3 hr
  omega

/-- Closed instance of C9 at a pass over 50 targets. -/
theorem pingAll_bounded_concurrency_witness :
    (initPass 50).inFlight ≤ 20
    ∧ ((initPass 50).returned = true → (initPass 50).doneCount = 50) :=
  pingAll_bounded_concurrency 50 (initPass 50) PassReachable.init

/-- C10: a freshly inserted record starts with both probe counters at zero;
a probe write-back increments the attempt counter by exactly 1 and the
failure counter by at most 1 (and only when loss ≥ 100); scan updates touch
neither; hence along any sequence of updates and write-backs the failure
count never exceeds the attempt count. -/
theorem probe_counts_invariant (pid : Int) (name protocol localAddr : String)
    (localPort : Int) (remoteAddr : String) (remotePort : Int) (state : ConnState)
    (txQ rxQ : Nat) (t0 now : ℚ) (events : List ConnEvent) :
    let c0 := initNew (mkScannedConn pid name protocol localAddr localPort
      remoteAddr remotePort state txQ rxQ t0) now
    c0.PingCount = 0 ∧ c0.PingFailed = 0
    ∧ (∀ (c : Conn) (rtt loss : ℚ),
        (pingWriteback c rtt loss).PingCount = c.PingCount + 1
        ∧ c.PingFailed ≤ (pingWriteback c rtt loss).PingFailed
        ∧ (pingWriteback c rtt loss).PingFailed ≤ c.PingFailed + 1
        ∧ (¬ 100 ≤ loss → (pingWriteback c rtt loss).PingFailed = c.PingFailed))
    ∧ (events.foldl applyEvent c0).PingFailed ≤ (events.foldl applyEvent c0).PingCount := by
  intro c0
  have hwb : ∀ (c : Conn) (rtt loss : ℚ),
      (pingWriteback c rtt loss).PingCount = c.PingCount + 1
      ∧ c.PingFailed ≤ (pingWriteback c rtt loss).PingFailed
      ∧ (pingWriteback c rtt loss).PingFailed ≤ c.PingFailed + 1
      ∧ (¬ 100 ≤ loss → (pingWriteback c rtt loss).PingFailed = c.PingFailed) := by
    intro c rtt loss
    unfold pingWriteback
    refine ⟨rfl, ?_, ?_, ?_⟩ <;> dsimp only <;> split_ifs <;> simp_all
  have hstep : ∀ (c : Conn) (ev : ConnEvent), c.PingFailed ≤ c.PingCount →
      (applyEvent c ev).PingFailed ≤ (applyEvent c ev).PingCount := by
    intro c ev hc
    cases ev with
    | scanUpdate sc2 now2 =>
      have h := updateExisting_ping_fields c sc2 now2
      show (updateExisting c sc2 now2).PingFailed ≤ (updateExisting c sc2 now2).PingCount
      rw [h.1, h.2]
      exact hc
    | pingWrite rtt loss =>
      have h := hwb c rtt loss
      show (pingWriteback c rtt loss).PingFailed ≤ (pingWriteback c rtt loss).PingCount
      omega
  have hfold : ∀ (evs : List ConnEvent) (c : Conn), c.PingFailed ≤ c.PingCount →
      (evs.foldl applyEvent c).PingFailed ≤ (evs.foldl applyEvent c).PingCount := by
    intro evs
    induction evs with
    | nil => intro c hc; exact hc
    | cons ev rest ih => intro c hc; exact ih _ (hstep c ev hc)
  have hc0 : c0.PingCount = 0 ∧ c0.PingFailed = 0 := ⟨rfl, rfl⟩
  exact ⟨hc0.1, hc0.2, hwb, hfold events c0 (by rw [hc0.1, hc0.2])⟩

/-- Closed instance of C10: one failing probe on a fresh record. -/
theorem probe_counts_invariant_witness :
    ([ConnEvent.pingWrite 9 100].foldl applyEvent
        (initNew (mkScannedConn 1 "a" "tcp" "l" 1 "r" 2 ConnState.established 5 6 100)
          101)).PingFailed
      ≤ ([ConnEvent.pingWrite 9 100].foldl applyEvent
        (initNew (mkScannedConn 1 "a" "tcp" "l" 1 "r" 2 ConnState.established 5 6 100)
          101)).PingCount :=
  (probe_counts_invariant 1 "a" "tcp" "l" 1 "r" 2 ConnState.established 5 6 100 101
    [ConnEvent.pingWrite 9 100]).2.2.2
